import Mathlib

/-!
# Ctlra USB backend (`ctlra/usb.c`): device sessions, banish list, transfers, hotplug

A shallow embedding of the USB backend of Ctlra.

* Pointers are `Option Nat`: `none` is the null pointer, `some a` the object at
  address `a`.  Device sessions live in a memory `devs : Nat → ctlra_dev_t`.
* One context (`ctlra_t`) is modelled together with the memory of its sessions,
  so `dev->ctlra_context` is always that context.
* Calls into libusb and into `ctlra.c` are external.  What they return is read
  from a `Transport` record of answer functions, and every call the code issues is
  recorded, in program order, in a list of `Call`s.
* Loops over the intrusive banish list take a `fuel` argument that bounds the
  number of evaluations of the loop condition; `none` means the bound was hit.
-/

namespace Ctlra

/-! ## Constants and external interface -/

/-- Constants of `libusb.h` and `impl.h` that `usb.c` refers to by name; they are
parameters of the model. -/
structure Consts where
  LIBUSB_SUCCESS : Int
  LIBUSB_ERROR_TIMEOUT : Int
  CTLRA_USB_IFACE_PER_DEV : Nat
  CTLRA_DEV_SERIAL_MAX : Nat

/-- Modelled from the spec: `struct libusb_device_descriptor` of `libusb.h`, which
is not among the sources; the three fields that `usb.c` reads (vendor id,
product id, serial descriptor index). -/
structure libusb_device_descriptor where
  idVendor : Nat
  idProduct : Nat
  iSerialNumber : Nat
deriving DecidableEq, Repr

/-- Modelled from the spec: the enum `libusb_hotplug_event` of `libusb.h`, which is
not among the sources; arrival, departure, and any other event kind. -/
inductive libusb_hotplug_event where
  | DEVICE_ARRIVED
  | DEVICE_LEFT
  | OTHER
deriving DecidableEq, Repr

/-- Answers of the external functions called by `usb.c`.  An out-parameter is
returned next to the return code. -/
structure Transport where
  /-- Answer `(cnt, devs)`: the count and the null-terminated array of devices. -/
  libusb_get_device_list : Int × List Nat
  /-- Answer `(r, desc)` for a device. -/
  libusb_get_device_descriptor : Nat → Int × libusb_device_descriptor
  /-- Answer `(ret, handle)` for a device (`none` is the null device pointer). -/
  libusb_open : Option Nat → Int × Option Nat
  /-- Answer `(ret, buffer)` for handle, descriptor index, old buffer and size. -/
  libusb_get_string_descriptor_ascii : Option Nat → Nat → List Nat → Nat → Int × List Nat
  /-- Whether detaching of kernel drivers is supported. -/
  libusb_has_capability_detach : Bool
  libusb_set_auto_detach_kernel_driver : Option Nat → Int → Int
  libusb_claim_interface : Option Nat → Int → Int
  libusb_kernel_driver_active : Option Nat → Int → Int
  /-- Answer `(r, transferred)` for handle, endpoint, data, size and timeout. -/
  libusb_interrupt_transfer : Option Nat → Nat → List Nat → Nat → Nat → Int × Int
  /-- Answer `(r, transferred)` for handle, endpoint, data, size and timeout. -/
  libusb_bulk_transfer : Option Nat → Nat → List Nat → Nat → Nat → Int × Int
  /-- Driver registry lookup of `ctlra.c`: a driver id, negative when unsupported. -/
  ctlra_impl_get_id_by_vid_pid : Nat → Nat → Int
  /-- Acceptance routine of `ctlra.c`: zero when the device was not accepted. -/
  ctlra_impl_accept_dev : Int → Int
  /-- Session lookup of `ctlra.c`: `(err, w)` where `w` is the pointer stored
  through `out_dev`, or `none` when nothing was stored. -/
  ctlra_impl_dev_get_by_vid_pid : Int → Int → Int × Option (Option Nat)

/-- External calls issued by the code, as they appear in a trace. -/
inductive Call where
  | libusb_get_device_descriptor (dev : Nat)
  | libusb_open (dev : Option Nat)
  | libusb_close (handle : Option Nat)
  | libusb_get_string_descriptor_ascii (handle : Option Nat) (desc_serial : Nat) (size : Nat)
  | libusb_interrupt_transfer (handle : Option Nat) (endpoint : Nat) (size : Nat) (timeout : Nat)
  | libusb_bulk_transfer (handle : Option Nat) (endpoint : Nat) (size : Nat) (timeout : Nat)
  | ctlra_impl_get_id_by_vid_pid (vid : Nat) (pid : Nat)
  | ctlra_impl_accept_dev (id : Int)
  | ctlra_impl_dev_get_by_vid_pid (vid : Int) (pid : Int)
  | ctlra_dev_disconnect (dev : Option Nat)
deriving DecidableEq, Repr

/-! ## Data model (`impl.h`) -/

/-- Modelled from the spec: `struct ctlra_dev_info_t`, whose declaration is not
among the sources; the identity fields that `usb.c` writes. -/
structure ctlra_dev_info_t where
  serial : List Nat
  serial_number : Nat
  vendor_id : Nat
  device_id : Nat

/-- Modelled from the spec: `struct ctlra_dev_t` of `impl.h`, which is not among the
sources; the fields used by `usb.c`.  `usb_interface` is the slot array, a
function of the slot index; the entries below `CTLRA_USB_IFACE_PER_DEV` are
the array itself.  `banished` is the flag, set to 1 by a banish. -/
structure ctlra_dev_t where
  info : ctlra_dev_info_t
  usb_device : Option Nat
  usb_interface : Nat → Option Nat
  banished : Nat
  banished_list_next : Option Nat

/-- Modelled from the spec: `struct ctlra_t` of `impl.h`, which is not among the
sources; the head of the banish list, and the memory holding the sessions. -/
structure ctlra_t where
  banished_list : Option Nat
  devs : Nat → ctlra_dev_t

/-- Store `v` at address `a` of the session memory. -/
def setDev (devs : Nat → ctlra_dev_t) (a : Nat) (v : ctlra_dev_t) : Nat → ctlra_dev_t :=
  fun b => if b = a then v else devs b

/-- Store `v` in slot `i` of a slot array. -/
def setSlot (slots : Nat → Option Nat) (i : Nat) (v : Option Nat) : Nat → Option Nat :=
  fun j => if j = i then v else slots j

/-! ## `ctlra_usb_impl_get_serial` -/

/-- Model of `ctlra_usb_impl_get_serial`: returns `(ret, buffer, calls)`. -/
def ctlra_usb_impl_get_serial (T : Transport) (handle : Option Nat) (desc_serial : Nat)
    (buffer : List Nat) (buf_size : Nat) : Int × List Nat × List Call :=
  if 0 < desc_serial then
    let a := T.libusb_get_string_descriptor_ascii handle desc_serial buffer buf_size
    let calls := [Call.libusb_get_string_descriptor_ascii handle desc_serial buf_size]
    if a.1 < 0 then (-1, a.2, calls) else (0, a.2, calls)
  else (0, buffer, [])

/-! ## Hotplug callback -/

/-- The quirk switch of the arrival branch (`quirk_vid`, `quirk_pid`). -/
def quirk_resolve (idVendor idProduct : Nat) : Nat × Nat :=
  let quirk_vid := idVendor
  let quirk_pid := idProduct
  if quirk_vid = 0x17cc then
    if quirk_pid = 0x1403 then (quirk_vid, 0x1400) else (quirk_vid, quirk_pid)
  else (quirk_vid, quirk_pid)

/-- Model of `ctlra_usb_impl_hotplug_cb`: returns the return code and the external
calls issued.  `ni_mm` is the indeterminate initial value of the local of that name. -/
def ctlra_usb_impl_hotplug_cb (K : Consts) (T : Transport) (dev : Nat)
    (event : libusb_hotplug_event) (ni_mm : Option Nat) : Int × List Call :=
  let d := T.libusb_get_device_descriptor dev
  let c0 := [Call.libusb_get_device_descriptor dev]
  if d.1 ≠ K.LIBUSB_SUCCESS then (-1, c0)
  else
    let desc := d.2
    match event with
    | .DEVICE_LEFT =>
      if desc.idVendor = 0x17cc ∧ desc.idProduct = 0x1200 then
        let g := T.ctlra_impl_dev_get_by_vid_pid 0x17cc 0x1200
        let ni_mm1 := match g.2 with
          | some p => p
          | none => ni_mm
        (0, c0 ++ [Call.ctlra_impl_dev_get_by_vid_pid 0x17cc 0x1200,
                   Call.ctlra_dev_disconnect ni_mm1])
      else (0, c0)
    | .DEVICE_ARRIVED =>
      let o := T.libusb_open (some dev)
      let c1 := c0 ++ [Call.libusb_open (some dev)]
      if o.1 ≠ K.LIBUSB_SUCCESS then (-1, c1)
      else
        let handle := o.2
        let s := ctlra_usb_impl_get_serial T handle (desc.iSerialNumber % 256) [] 255
        let c2 := c1 ++ s.2.2
        let q := quirk_resolve desc.idVendor desc.idProduct
        let id := T.ctlra_impl_get_id_by_vid_pid q.1 q.2
        let c3 := c2 ++ [Call.ctlra_impl_get_id_by_vid_pid q.1 q.2]
        if id < 0 then (-1, c3 ++ [Call.libusb_close handle])
        else
          let accepted := T.ctlra_impl_accept_dev id
          let c4 := c3 ++ [Call.ctlra_impl_accept_dev id]
          if accepted = 0 then (0, c4 ++ [Call.libusb_close handle])
          else (0, c4)
    | .OTHER => (0, c0)

/-! ## `ctlra_dev_impl_usb_open` -/

/-- Outcome of the enumeration loop of `ctlra_dev_impl_usb_open`. -/
inductive ScanResult where
  /-- A descriptor read failed (`goto fail`). -/
  | fail
  /-- The loop ended with `dev` (null when the array was exhausted). -/
  | done (ctlra_dev : ctlra_dev_t) (dev : Option Nat)

/-- The `while ((dev = devs[i++]) != NULL)` loop of `ctlra_dev_impl_usb_open`. -/
def usb_open_scan (T : Transport) (vid pid : Int) (ctlra_dev : ctlra_dev_t) :
    List Nat → ScanResult
  | [] => .done ctlra_dev none
  | dev :: rest =>
    let d := T.libusb_get_device_descriptor dev
    if d.1 < 0 then .fail
    else
      let desc := d.2
      if (desc.idVendor : Int) = vid ∧ (desc.idProduct : Int) = pid then
        .done { ctlra_dev with
                info := { ctlra_dev.info with
                          serial_number := desc.iSerialNumber
                          vendor_id := desc.idVendor
                          device_id := desc.idProduct } } (some dev)
      else usb_open_scan T vid pid ctlra_dev rest

/-- Model of `ctlra_dev_impl_usb_open`: returns the session and the return code. -/
def ctlra_dev_impl_usb_open (K : Consts) (T : Transport) (ctlra_dev : ctlra_dev_t)
    (vid pid : Int) : ctlra_dev_t × Int :=
  let l := T.libusb_get_device_list
  if l.1 < 0 then (ctlra_dev, -1)
  else
    match usb_open_scan T vid pid ctlra_dev l.2 with
    | .fail => (ctlra_dev, -1)
    | .done _ none => (ctlra_dev, -1)
    | .done d1 (some dev) =>
      ({ d1 with
         usb_device := some dev
         usb_interface := fun i =>
           if i < K.CTLRA_USB_IFACE_PER_DEV then none else d1.usb_interface i }, 0)

/-! ## `ctlra_dev_impl_usb_open_interface` -/

/-- Model of `ctlra_dev_impl_usb_open_interface`: returns the session and the
return code; `none` when the committing store has a negative index, which is
outside the slot array. -/
def ctlra_dev_impl_usb_open_interface (K : Consts) (T : Transport) (ctlra_dev : ctlra_dev_t)
    (interface : Int) (handle_idx : Int) : Option (ctlra_dev_t × Int) :=
  if handle_idx ≥ (K.CTLRA_USB_IFACE_PER_DEV : Int) then some (ctlra_dev, -1)
  else
    let usb_dev := ctlra_dev.usb_device
    let o := T.libusb_open usb_dev
    if o.1 ≠ K.LIBUSB_SUCCESS then some (ctlra_dev, -1)
    else
      let handle := o.2
      let s := ctlra_usb_impl_get_serial T handle (ctlra_dev.info.serial_number % 256)
        ctlra_dev.info.serial K.CTLRA_DEV_SERIAL_MAX
      let d1 : ctlra_dev_t := { ctlra_dev with info := { ctlra_dev.info with serial := s.2.1 } }
      if T.libusb_has_capability_detach ∧
          T.libusb_set_auto_detach_kernel_driver handle 1 ≠ K.LIBUSB_SUCCESS then
        some (d1, -1)
      else if T.libusb_claim_interface handle interface ≠ K.LIBUSB_SUCCESS then
        some (d1, -1)
      else if handle_idx < 0 then none
      else some ({ d1 with usb_interface := setSlot d1.usb_interface handle_idx.toNat handle }, 0)

/-! ## `ctlra_dev_impl_banish` -/

/-- The loop `while(dev_iter->banished_list_next) dev_iter = dev_iter->banished_list_next;`
started at `dev_iter`: the session it stops at. -/
def banish_tail (devs : Nat → ctlra_dev_t) : Nat → Nat → Option Nat
  | 0, _ => none
  | fuel + 1, dev_iter =>
    match (devs dev_iter).banished_list_next with
    | none => some dev_iter
    | some nxt => banish_tail devs fuel nxt

/-- Model of `ctlra_dev_impl_banish`. -/
def ctlra_dev_impl_banish (fuel : Nat) (ctlra : ctlra_t) (dev : Nat) : Option ctlra_t :=
  let devs1 := setDev ctlra.devs dev { ctlra.devs dev with banished := 1 }
  match ctlra.banished_list with
  | none => some { banished_list := some dev, devs := devs1 }
  | some head =>
    match banish_tail devs1 fuel head with
    | none => none
    | some dev_iter =>
      let devs2 := setDev devs1 dev_iter { devs1 dev_iter with banished_list_next := some dev }
      let devs3 := setDev devs2 dev { devs2 dev with banished_list_next := none }
      some { banished_list := some head, devs := devs3 }

/-! ## Transfers -/

/-- Model of `ctlra_dev_impl_usb_interrupt_read`: returns context, return value, calls. -/
def ctlra_dev_impl_usb_interrupt_read (K : Consts) (T : Transport) (fuel : Nat)
    (ctlra : ctlra_t) (dev : Nat) (idx endpoint : Nat) (data : List Nat) (size : Nat) :
    Option (ctlra_t × Int × List Call) :=
  let timeout := 10
  let handle := (ctlra.devs dev).usb_interface idx
  let t := T.libusb_interrupt_transfer handle endpoint data size timeout
  let calls := [Call.libusb_interrupt_transfer handle endpoint size timeout]
  if t.1 = K.LIBUSB_ERROR_TIMEOUT then some (ctlra, 0, calls)
  else if t.1 < 0 then
    match ctlra_dev_impl_banish fuel ctlra dev with
    | none => none
    | some ctlra1 => some (ctlra1, t.1, calls)
  else some (ctlra, t.2, calls)

/-- Model of `ctlra_dev_impl_usb_interrupt_write`: returns context, return value, calls. -/
def ctlra_dev_impl_usb_interrupt_write (K : Consts) (T : Transport) (fuel : Nat)
    (ctlra : ctlra_t) (dev : Nat) (idx endpoint : Nat) (data : List Nat) (size : Nat) :
    Option (ctlra_t × Int × List Call) :=
  let timeout := 100
  let handle := (ctlra.devs dev).usb_interface idx
  let t := T.libusb_interrupt_transfer handle endpoint data size timeout
  let calls := [Call.libusb_interrupt_transfer handle endpoint size timeout]
  if t.1 = K.LIBUSB_ERROR_TIMEOUT then some (ctlra, 0, calls)
  else if t.1 < 0 then
    match ctlra_dev_impl_banish fuel ctlra dev with
    | none => none
    | some ctlra1 => some (ctlra1, t.1, calls)
  else some (ctlra, t.2, calls)

/-- Model of `ctlra_dev_impl_usb_bulk_write`: returns context, return value, calls. -/
def ctlra_dev_impl_usb_bulk_write (K : Consts) (T : Transport) (fuel : Nat)
    (ctlra : ctlra_t) (dev : Nat) (idx endpoint : Nat) (data : List Nat) (size : Nat) :
    Option (ctlra_t × Int × List Call) :=
  let timeout := 100
  let handle := (ctlra.devs dev).usb_interface idx
  let t := T.libusb_bulk_transfer handle endpoint data size timeout
  let calls := [Call.libusb_bulk_transfer handle endpoint size timeout]
  if t.1 = K.LIBUSB_ERROR_TIMEOUT then some (ctlra, 0, calls)
  else if t.1 < 0 then
    match ctlra_dev_impl_banish fuel ctlra dev with
    | none => none
    | some ctlra1 => some (ctlra1, t.1, calls)
  else some (ctlra, t.2, calls)

/-! ## Specification vocabulary -/

/-- Following `banished_list_next` from pointer `p` visits exactly the sessions of
`L`, in order, and then arrives at pointer `q`. -/
def IsSeg (devs : Nat → ctlra_dev_t) : Option Nat → List Nat → Option Nat → Prop
  | p, [], q => p = q
  | p, x :: xs, q => p = some x ∧ IsSeg devs (devs x).banished_list_next xs q

/-- Traversing the banish list of `ctlra` from its head visits exactly `L` and
ends at null: the list is a well-formed chain with contents `L`. -/
def BanishListIs (ctlra : ctlra_t) (L : List Nat) : Prop :=
  IsSeg ctlra.devs ctlra.banished_list L none

/-- Call `ctlra_dev_impl_banish` on `dev` `n` times in a row. -/
def banishTimes (fuel : Nat) : Nat → ctlra_t → Nat → Option ctlra_t
  | 0, ctlra, _ => some ctlra
  | n + 1, ctlra, dev =>
    match ctlra_dev_impl_banish fuel ctlra dev with
    | none => none
    | some ctlra1 => banishTimes fuel n ctlra1 dev

/-- The session `dev` is banished exactly once: its flag is set, and the banish
list is a well-formed chain whose traversal visits `dev` exactly once. -/
def BanishedOnce (ctlra : ctlra_t) (dev : Nat) : Prop :=
  (ctlra.devs dev).banished = 1 ∧ ∃ L, BanishListIs ctlra L ∧ L.count dev = 1

/-- The link memory is acyclic: from every session, following `banished_list_next`
arrives at null after finitely many sessions.  Zero-initialised sessions
satisfy it, and the two link stores of `ctlra_dev_impl_banish` preserve it. -/
def LinksAcyclic (devs : Nat → ctlra_dev_t) : Prop :=
  ∀ d, ∃ M, IsSeg devs (some d) M none

/-! ## Concrete values used to evaluate the model -/

/-- Constants as in libusb 1.0 (`LIBUSB_SUCCESS = 0`, `LIBUSB_ERROR_TIMEOUT = -7`),
with two interface slots per device and a 64 byte serial buffer. -/
def K0 : Consts :=
  { LIBUSB_SUCCESS := 0, LIBUSB_ERROR_TIMEOUT := -7,
    CTLRA_USB_IFACE_PER_DEV := 2, CTLRA_DEV_SERIAL_MAX := 64 }

/-- A zero-initialised session. -/
def dev0 : ctlra_dev_t :=
  { info := { serial := [], serial_number := 0, vendor_id := 0, device_id := 0 }
    usb_device := none
    usb_interface := fun _ => none
    banished := 0
    banished_list_next := none }

/-- A context with an empty banish list and zero-initialised sessions. -/
def ctlra0 : ctlra_t := { banished_list := none, devs := fun _ => dev0 }

/-- A context whose banish list is 1 → 2 → 3, all three sessions flagged. -/
def ctlra123 : ctlra_t :=
  { banished_list := some 1
    devs := fun a =>
      if a = 1 then { dev0 with banished := 1, banished_list_next := some 2 }
      else if a = 2 then { dev0 with banished := 1, banished_list_next := some 3 }
      else if a = 3 then { dev0 with banished := 1, banished_list_next := none }
      else dev0 }

/-- A transport on which every call succeeds, one device (address 7, identity
17cc:1400, no serial string) is enumerated, and transfers move 4 bytes. -/
def T0 : Transport :=
  { libusb_get_device_list := (1, [7])
    libusb_get_device_descriptor := fun _ =>
      (0, { idVendor := 0x17cc, idProduct := 0x1400, iSerialNumber := 0 })
    libusb_open := fun _ => (0, some 500)
    libusb_get_string_descriptor_ascii := fun _ _ b _ => (0, b)
    libusb_has_capability_detach := true
    libusb_set_auto_detach_kernel_driver := fun _ _ => 0
    libusb_claim_interface := fun _ _ => 0
    libusb_kernel_driver_active := fun _ _ => 0
    libusb_interrupt_transfer := fun _ _ _ _ _ => (0, 4)
    libusb_bulk_transfer := fun _ _ _ _ _ => (0, 4)
    ctlra_impl_get_id_by_vid_pid := fun _ _ => 3
    ctlra_impl_accept_dev := fun _ => 1
    ctlra_impl_dev_get_by_vid_pid := fun _ _ => (0, some (some 1)) }

/-- The transport `T0` with every transfer reporting `LIBUSB_ERROR_TIMEOUT` (-7). -/
def Ttimeout : Transport :=
  { T0 with
    libusb_interrupt_transfer := fun _ _ _ _ _ => (-7, 0)
    libusb_bulk_transfer := fun _ _ _ _ _ => (-7, 0) }

/-- The transport `T0` with every transfer reporting `LIBUSB_ERROR_NO_DEVICE` (-4). -/
def Tnodev : Transport :=
  { T0 with
    libusb_interrupt_transfer := fun _ _ _ _ _ => (-4, 0)
    libusb_bulk_transfer := fun _ _ _ _ _ => (-4, 0) }

/-- A context in which session 1 is banished (flagged and alone in the banish
list) and still holds the open handle 500 in interface slot 0. -/
def ctlraBanished : ctlra_t :=
  { banished_list := some 1
    devs := fun a =>
      if a = 1 then
        { dev0 with
          usb_interface := fun i => if i = 0 then some 500 else none
          banished := 1 }
      else dev0 }

/-- The descriptor of device `d` carries the pair `(vid, pid)`. -/
def DescMatches (T : Transport) (vid pid : Int) (d : Nat) : Prop :=
  ((T.libusb_get_device_descriptor d).2.idVendor : Int) = vid ∧
  ((T.libusb_get_device_descriptor d).2.idProduct : Int) = pid

/-- In the enumeration `devs`, `d` is the first device whose descriptor carries
`(vid, pid)`, and the descriptor reads of `d` and of every device enumerated
before it succeed. -/
def FirstMatch (T : Transport) (vid pid : Int) (devs : List Nat) (d : Nat) : Prop :=
  ∃ pre post, devs = pre ++ d :: post ∧
    (∀ x ∈ pre, 0 ≤ (T.libusb_get_device_descriptor x).1 ∧ ¬ DescMatches T vid pid x) ∧
    0 ≤ (T.libusb_get_device_descriptor d).1 ∧ DescMatches T vid pid d

/-- The transport `T0` enumerating devices 7 and 8, where the descriptor read of
device 7 fails and device 8 reads as 17cc:1400. -/
def Tbad : Transport :=
  { T0 with
    libusb_get_device_list := (2, [7, 8])
    libusb_get_device_descriptor := fun d =>
      if d = 7 then (-1, { idVendor := 0, idProduct := 0, iSerialNumber := 0 })
      else (0, { idVendor := 0x17cc, idProduct := 0x1400, iSerialNumber := 0 }) }

/-- The transport `T0` where devices read as 17cc:1200 and the session lookup
finds no session: it returns -1 and stores nothing through `out_dev`. -/
def Tnone : Transport :=
  { T0 with
    libusb_get_device_descriptor := fun _ =>
      (0, { idVendor := 0x17cc, idProduct := 0x1200, iSerialNumber := 0 })
    ctlra_impl_dev_get_by_vid_pid := fun _ _ => (-1, none) }

/-- The transport `T0` where devices read as 17cc:1403 (the hub of the Kontrol D2). -/
def Tquirk : Transport :=
  { T0 with
    libusb_get_device_descriptor := fun _ =>
      (0, { idVendor := 0x17cc, idProduct := 0x1403, iSerialNumber := 0 }) }

/-- The transport `T0` where devices read as 0000:0000 and the driver registry
supports no device. -/
def Tunsupported : Transport :=
  { T0 with
    libusb_get_device_descriptor := fun _ =>
      (0, { idVendor := 0, idProduct := 0, iSerialNumber := 0 })
    ctlra_impl_get_id_by_vid_pid := fun _ _ => -1 }

/-! ## Lemmas on chains of `banished_list_next` links -/

theorem IsSeg_append (devs : Nat → ctlra_dev_t) (l1 l2 : List Nat) (p q : Option Nat) :
    IsSeg devs p (l1 ++ l2) q ↔ ∃ m, IsSeg devs p l1 m ∧ IsSeg devs m l2 q := by
  induction l1 generalizing p with
  | nil =>
    constructor
    · intro h
      exact ⟨p, rfl, h⟩
    · rintro ⟨m, hm, h⟩
      have hm2 : p = m := hm
      subst hm2
      exact h
  | cons x xs ih =>
    constructor
    · rintro ⟨hp, h⟩
      obtain ⟨m, h1, h2⟩ := (ih _).1 h
      exact ⟨m, ⟨hp, h1⟩, h2⟩
    · rintro ⟨m, ⟨hp, h1⟩, h2⟩
      exact ⟨hp, (ih _).2 ⟨m, h1, h2⟩⟩

theorem IsSeg_congr (devs devs2 : Nat → ctlra_dev_t) (L : List Nat) (p q : Option Nat)
    (h : ∀ x ∈ L, (devs2 x).banished_list_next = (devs x).banished_list_next)
    (hs : IsSeg devs p L q) : IsSeg devs2 p L q := by
  induction L generalizing p with
  | nil => exact hs
  | cons x xs ih =>
    obtain ⟨hp, hr⟩ := hs
    refine ⟨hp, ?_⟩
    rw [h x (List.mem_cons_self x xs)]
    exact ih _ (fun y hy => h y (List.mem_cons_of_mem x hy)) hr

theorem IsSeg_unique (devs : Nat → ctlra_dev_t) (L L2 : List Nat) (p : Option Nat)
    (h1 : IsSeg devs p L none) (h2 : IsSeg devs p L2 none) : L = L2 := by
  induction L generalizing p L2 with
  | nil =>
    cases L2 with
    | nil => rfl
    | cons y ys =>
      have a : p = none := h1
      have b : p = some y := h2.1
      rw [a] at b
      cases b
  | cons x xs ih =>
    cases L2 with
    | nil =>
      have a : p = some x := h1.1
      have b : p = none := h2
      rw [a] at b
      cases b
    | cons y ys =>
      have a : p = some x := h1.1
      have b : p = some y := h2.1
      rw [a] at b
      cases b
      rw [ih ys _ h1.2 h2.2]

theorem IsSeg_nodup (devs : Nat → ctlra_dev_t) (L : List Nat) (p : Option Nat)
    (h : IsSeg devs p L none) : L.Nodup := by
  induction L generalizing p with
  | nil => exact List.nodup_nil
  | cons x xs ih =>
    refine List.nodup_cons.2 ⟨?_, ih _ h.2⟩
    intro hx
    obtain ⟨l1, l2, rfl⟩ := List.append_of_mem hx
    obtain ⟨m, _, hm⟩ := (IsSeg_append devs l1 (x :: l2) _ none).1 h.2
    have e := IsSeg_unique devs _ _ (devs x).banished_list_next hm.2 h.2
    have hl := congrArg List.length e
    simp at hl
    omega

theorem banish_tail_spec (devs : Nat → ctlra_dev_t) (l : List Nat) (t h fuel : Nat)
    (hs : IsSeg devs (some h) (l ++ [t]) none) (hf : (l ++ [t]).length ≤ fuel) :
    banish_tail devs fuel h = some t := by
  induction l generalizing h fuel with
  | nil =>
    have hp : some h = some t := hs.1
    have hn : (devs t).banished_list_next = none := hs.2
    have e : h = t := Option.some.inj hp
    subst e
    cases fuel with
    | zero => simp at hf
    | succ f => simp [banish_tail, hn]
  | cons x xs ih =>
    have hp : some h = some x := hs.1
    have hr : IsSeg devs (devs x).banished_list_next (xs ++ [t]) none := hs.2
    have e : h = x := Option.some.inj hp
    subst e
    cases fuel with
    | zero => simp at hf
    | succ f =>
      cases hxs : (xs ++ [t]) with
      | nil => simp at hxs
      | cons y ys =>
        rw [hxs] at hr
        have hy : (devs h).banished_list_next = some y := hr.1
        have hr2 : IsSeg devs (some y) (xs ++ [t]) none := by
          rw [hxs]
          exact ⟨rfl, hr.2⟩
        have hf2 : (xs ++ [t]).length ≤ f := by
          simp at hf ⊢
          omega
        simp [banish_tail, hy, ih y f hr2 hf2]

theorem takeWhile_ne_of_not_mem (dev : Nat) (l : List Nat) (h : dev ∉ l) :
    l.takeWhile (fun x => decide (x ≠ dev)) = l := by
  induction l with
  | nil => rfl
  | cons x xs ih =>
    have hx : x ≠ dev := fun e => h (e ▸ List.mem_cons_self x xs)
    have hxs : dev ∉ xs := fun m => h (List.mem_cons_of_mem x m)
    have hd : decide (x ≠ dev) = true := decide_eq_true hx
    rw [List.takeWhile_cons, hd, if_pos rfl, ih hxs]

theorem takeWhile_ne_append (dev : Nat) (l1 l2 : List Nat) (h : dev ∉ l1) :
    (l1 ++ dev :: l2).takeWhile (fun x => decide (x ≠ dev)) = l1 := by
  induction l1 with
  | nil =>
    have hd : decide (dev ≠ dev) = false := decide_eq_false (fun c => c rfl)
    rw [List.nil_append, List.takeWhile_cons, hd]
    rfl
  | cons x xs ih =>
    have hx : x ≠ dev := fun e => h (e ▸ List.mem_cons_self x xs)
    have hxs : dev ∉ xs := fun m => h (List.mem_cons_of_mem x m)
    have hd : decide (x ≠ dev) = true := decide_eq_true hx
    rw [List.cons_append, List.takeWhile_cons, hd, if_pos rfl, ih hxs]

theorem count_takeWhile_ne (dev : Nat) (l : List Nat) :
    (l.takeWhile (fun x => decide (x ≠ dev)) ++ [dev]).count dev = 1 := by
  by_cases hm : dev ∈ l
  · have hm2 : dev ∈ l.takeWhile (fun x => decide (x ≠ dev)) → False := by
      intro hmem
      have := List.mem_takeWhile_imp hmem
      simp at this
    rw [List.count_append, List.count_eq_zero_of_not_mem hm2]
    simp
  · rw [takeWhile_ne_of_not_mem dev l hm, List.count_append, List.count_eq_zero_of_not_mem hm]
    simp

theorem setDev_eq (devs : Nat → ctlra_dev_t) (a : Nat) (v : ctlra_dev_t) :
    setDev devs a v a = v := by
  simp [setDev]

theorem setDev_ne (devs : Nat → ctlra_dev_t) (a b : Nat) (v : ctlra_dev_t) (h : b ≠ a) :
    setDev devs a v b = devs b := by
  simp [setDev, h]

/-- Links of the session memory after the two stores of the `else` branch of
`ctlra_dev_impl_banish`, with `t` the session at which the loop stopped. -/
theorem banish_links (devs : Nat → ctlra_dev_t) (dev t x : Nat) :
    (setDev (setDev (setDev devs dev { devs dev with banished := 1 }) t
        { setDev devs dev { devs dev with banished := 1 } t with
          banished_list_next := some dev }) dev
        { setDev (setDev devs dev { devs dev with banished := 1 }) t
            { setDev devs dev { devs dev with banished := 1 } t with
              banished_list_next := some dev } dev with
          banished_list_next := none } x).banished_list_next
    = if x = dev then none else if x = t then some dev else (devs x).banished_list_next := by
  by_cases h1 : x = dev
  · subst h1
    rw [setDev_eq, if_pos rfl]
  · rw [setDev_ne _ _ _ _ h1, if_neg h1]
    by_cases h2 : x = t
    · subst h2
      rw [setDev_eq, if_pos rfl]
    · rw [setDev_ne _ _ _ _ h2, setDev_ne _ _ _ _ h1, if_neg h2]

theorem banish_flags (devs : Nat → ctlra_dev_t) (dev t x : Nat) :
    (setDev (setDev (setDev devs dev { devs dev with banished := 1 }) t
        { setDev devs dev { devs dev with banished := 1 } t with
          banished_list_next := some dev }) dev
        { setDev (setDev devs dev { devs dev with banished := 1 }) t
            { setDev devs dev { devs dev with banished := 1 } t with
              banished_list_next := some dev } dev with
          banished_list_next := none } x).banished
    = if x = dev then 1 else (devs x).banished := by
  by_cases h1 : x = dev
  · subst h1
    rw [setDev_eq, if_pos rfl]
    by_cases h2 : x = t
    · subst h2
      rw [setDev_eq, setDev_eq]
    · rw [setDev_ne _ _ _ _ h2, setDev_eq]
  · rw [setDev_ne _ _ _ _ h1, if_neg h1]
    by_cases h2 : x = t
    · subst h2
      rw [setDev_eq, setDev_ne _ _ _ _ h1]
    · rw [setDev_ne _ _ _ _ h2, setDev_ne _ _ _ _ h1]

theorem banish_eq (fuel : Nat) (c : ctlra_t) (dev hd t : Nat)
    (h1 : c.banished_list = some hd)
    (h2 : banish_tail (setDev c.devs dev { c.devs dev with banished := 1 }) fuel hd = some t) :
    ctlra_dev_impl_banish fuel c dev = some
      { banished_list := some hd
        devs := setDev (setDev (setDev c.devs dev { c.devs dev with banished := 1 }) t
          { setDev c.devs dev { c.devs dev with banished := 1 } t with
            banished_list_next := some dev }) dev
          { setDev (setDev c.devs dev { c.devs dev with banished := 1 }) t
              { setDev c.devs dev { c.devs dev with banished := 1 } t with
                banished_list_next := some dev } dev with
            banished_list_next := none } } := by
  simp only [ctlra_dev_impl_banish, h1, h2]

/-- What `ctlra_dev_impl_banish` does to a non-empty well-formed banish list `L`:
it returns, the session is flagged, no other flag changes, and the list becomes
the part of `L` before the session followed by the session. -/
theorem banish_nonempty (c : ctlra_t) (dev : Nat) (L : List Nat) (fuel : Nat)
    (hL : L ≠ []) (hc : BanishListIs c L) (hf : L.length ≤ fuel) :
    ∃ c1, ctlra_dev_impl_banish fuel c dev = some c1 ∧
      BanishListIs c1 (L.takeWhile (fun x => decide (x ≠ dev)) ++ [dev]) ∧
      (∀ x, (c1.devs x).banished = if x = dev then 1 else (c.devs x).banished) := by
  obtain ⟨hd, tl, rfl⟩ := List.exists_cons_of_ne_nil hL
  have hhead : c.banished_list = some hd := hc.1
  rcases List.eq_nil_or_concat (hd :: tl) with hnil | ⟨l, t, hlt⟩
  · exact absurd hnil hL
  rw [List.concat_eq_append] at hlt
  have hnd : (hd :: tl).Nodup := IsSeg_nodup c.devs _ _ hc
  have hc0 : IsSeg c.devs (some hd) (hd :: tl) none := by
    have h := hc
    unfold BanishListIs at h
    rw [hhead] at h
    exact h
  have hc1 : IsSeg (setDev c.devs dev { c.devs dev with banished := 1 }) (some hd)
      (l ++ [t]) none := by
    rw [← hlt]
    refine IsSeg_congr c.devs _ _ _ _ ?_ hc0
    intro x _
    by_cases hx : x = dev
    · subst hx
      rw [setDev_eq]
    · rw [setDev_ne _ _ _ _ hx]
  have hlen : (l ++ [t]).length ≤ fuel := by
    rw [← hlt]
    exact hf
  have htail := banish_tail_spec _ l t hd fuel hc1 hlen
  refine ⟨_, banish_eq fuel c dev hd t hhead htail, ?_, ?_⟩
  · show IsSeg _ (some hd) _ none
    rw [hlt] at hc0 hnd ⊢
    by_cases hm : dev ∈ l ++ [t]
    · obtain ⟨l1, l2, e⟩ := List.append_of_mem hm
      rw [e] at hnd hc0
      have hdl1 : dev ∉ l1 := by
        intro hmem
        have := List.nodup_append.1 hnd
        exact this.2.2 hmem (List.mem_cons_self dev l2)
      have htl : t ∈ dev :: l2 := by
        have h1 : (l ++ [t]).getLast? = some t := List.getLast?_concat l
        rw [e, List.getLast?_append_cons] at h1
        exact List.mem_of_mem_getLast? h1
      have htl1 : t ∉ l1 := by
        intro hmem
        have := List.nodup_append.1 hnd
        exact this.2.2 hmem htl
      rw [e, takeWhile_ne_append dev l1 l2 hdl1]
      obtain ⟨m, hm1, hm2⟩ := (IsSeg_append c.devs l1 (dev :: l2) _ _).1 hc0
      have hmd : m = some dev := hm2.1
      subst hmd
      refine (IsSeg_append _ l1 [dev] _ _).2 ⟨some dev, ?_, ?_⟩
      · refine IsSeg_congr c.devs _ _ _ _ ?_ hm1
        intro x hx
        have hxd : x ≠ dev := fun e2 => hdl1 (e2 ▸ hx)
        have hxt : x ≠ t := fun e2 => htl1 (e2 ▸ hx)
        rw [banish_links, if_neg hxd, if_neg hxt]
      · refine ⟨rfl, ?_⟩
        show _ = none
        rw [banish_links, if_pos rfl]
    · rw [takeWhile_ne_of_not_mem dev _ hm]
      have htd : t ≠ dev := fun e2 => hm (e2 ▸ by simp)
      have htl : t ∉ l := by
        intro hmem
        have := List.nodup_append.1 hnd
        exact this.2.2 hmem (List.mem_singleton_self t)
      obtain ⟨m, hm1, hm2⟩ := (IsSeg_append c.devs l [t] _ _).1 hc0
      have hmd : m = some t := hm2.1
      subst hmd
      rw [List.append_assoc]
      refine (IsSeg_append _ l ([t] ++ [dev]) _ _).2 ⟨some t, ?_, ?_⟩
      · refine IsSeg_congr c.devs _ _ _ _ ?_ hm1
        intro x hx
        have hxd : x ≠ dev := fun e2 => hm (List.mem_append_left _ (e2 ▸ hx))
        have hxt : x ≠ t := fun e2 => htl (e2 ▸ hx)
        rw [banish_links, if_neg hxd, if_neg hxt]
      · refine ⟨rfl, ?_, ?_⟩
        · rw [banish_links, if_neg htd, if_pos rfl]
        · show _ = none
          rw [banish_links, if_pos rfl]
  · intro x
    exact banish_flags c.devs dev t x

theorem length_takeWhile_ne (dev : Nat) (l : List Nat) (h : dev ∈ l) :
    (l.takeWhile (fun x => decide (x ≠ dev)) ++ [dev]).length ≤ l.length := by
  induction l with
  | nil => simp at h
  | cons x xs ih =>
    by_cases hx : x = dev
    · have hd : decide (x ≠ dev) = false := decide_eq_false (fun c => c hx)
      rw [List.takeWhile_cons, hd]
      simp
    · have hd : decide (x ≠ dev) = true := decide_eq_true hx
      have hxs : dev ∈ xs := by
        rcases List.mem_cons.1 h with h1 | h1
        · exact absurd h1.symm hx
        · exact h1
      have := ih hxs
      rw [List.takeWhile_cons, hd, if_pos rfl]
      simp at this ⊢
      omega

theorem banish_empty (fuel : Nat) (c : ctlra_t) (dev : Nat) (h : c.banished_list = none) :
    ctlra_dev_impl_banish fuel c dev = some
      { banished_list := some dev
        devs := setDev c.devs dev { c.devs dev with banished := 1 } } := by
  simp only [ctlra_dev_impl_banish, h]

/-- One call of `ctlra_dev_impl_banish` on a state whose list is well formed (and
whose session has a null-terminated link chain when the list is empty) returns
a state in which the list is non-empty, bounded in length, and holds the session once. -/
theorem banish_first (c : ctlra_t) (dev : Nat) (L M : List Nat) (fuel : Nat)
    (hc : BanishListIs c L)
    (hdev : c.banished_list = none → IsSeg c.devs (some dev) M none)
    (hf : L.length ≤ fuel) :
    ∃ c1, ctlra_dev_impl_banish fuel c dev = some c1 ∧
      (c1.devs dev).banished = 1 ∧
      ∃ L1, BanishListIs c1 L1 ∧ L1.count dev = 1 ∧ L1.length ≤ L.length + M.length + 1 := by
  by_cases hL : L = []
  · subst hL
    have hnone : c.banished_list = none := hc
    have hM := hdev hnone
    refine ⟨_, banish_empty fuel c dev hnone, ?_, M, ?_, ?_, ?_⟩
    · show (setDev c.devs dev _ dev).banished = 1
      rw [setDev_eq]
    · show IsSeg _ (some dev) M none
      refine IsSeg_congr c.devs _ _ _ _ ?_ hM
      intro x _
      show (setDev c.devs dev _ x).banished_list_next = _
      by_cases hx : x = dev
      · rw [hx, setDev_eq]
      · rw [setDev_ne _ _ _ _ hx]
    · have hnd := IsSeg_nodup c.devs M _ hM
      cases M with
      | nil =>
        have e : some dev = none := hM
        cases e
      | cons y ys =>
        have e : some dev = some y := hM.1
        have e2 : dev = y := Option.some.inj e
        subst e2
        exact List.count_eq_one_of_mem hnd (List.mem_cons_self dev ys)
    · simp
  · obtain ⟨c1, h1, h2, h3⟩ := banish_nonempty c dev L fuel hL hc hf
    refine ⟨c1, h1, ?_, _, h2, count_takeWhile_ne dev L, ?_⟩
    · rw [h3 dev, if_pos rfl]
    · have := (List.takeWhile_sublist (fun x => decide (x ≠ dev)) (l := L)).length_le
      rw [List.length_append, List.length_singleton]
      omega

/-- Further calls of `ctlra_dev_impl_banish` on a session that is in the list keep
the session flagged and in the list exactly once. -/
theorem banish_again (c : ctlra_t) (dev : Nat) (B fuel : Nat) (hf : B ≤ fuel) (n : Nat)
    (hflag : (c.devs dev).banished = 1)
    (hlist : ∃ L, BanishListIs c L ∧ L.count dev = 1 ∧ L.length ≤ B) :
    ∃ c1, banishTimes fuel n c dev = some c1 ∧ BanishedOnce c1 dev := by
  induction n generalizing c with
  | zero =>
    obtain ⟨L, h1, h2, _⟩ := hlist
    exact ⟨c, rfl, hflag, L, h1, h2⟩
  | succ k ih =>
    obtain ⟨L, h1, h2, h3⟩ := hlist
    have hmem : dev ∈ L := List.count_pos_iff.1 (by omega)
    have hL : L ≠ [] := List.ne_nil_of_mem hmem
    obtain ⟨c1, e1, e2, e3⟩ := banish_nonempty c dev L fuel hL h1 (by omega)
    have hflag1 : (c1.devs dev).banished = 1 := by
      rw [e3 dev, if_pos rfl]
    have hlen := length_takeWhile_ne dev L hmem
    obtain ⟨c2, f1, f2⟩ := ih c1 hflag1 ⟨_, e2, count_takeWhile_ne dev L, by omega⟩
    refine ⟨c2, ?_, f2⟩
    simp only [banishTimes, e1, f1]

theorem links_acyclic_fresh : LinksAcyclic ctlra0.devs :=
  fun d => ⟨[d], rfl, rfl⟩

/-- With an acyclic link memory the banish list is a well-formed chain. -/
theorem acyclic_banish_list (c : ctlra_t) (hmem : LinksAcyclic c.devs) :
    ∃ L, BanishListIs c L := by
  cases hh : c.banished_list with
  | none => exact ⟨[], hh⟩
  | some hd =>
    obtain ⟨M, hM⟩ := hmem hd
    refine ⟨M, ?_⟩
    unfold BanishListIs
    rw [hh]
    exact hM

/-- Redirecting one link to `dev` and nulling the link of `dev` keeps every
null-terminated chain null-terminated. -/
theorem chain_after_stores (devs devs3 : Nat → ctlra_dev_t) (dev t : Nat)
    (h3 : ∀ x, (devs3 x).banished_list_next =
      if x = dev then none else if x = t then some dev else (devs x).banished_list_next)
    (M0 : List Nat) (p : Option Nat) (h : IsSeg devs p M0 none) :
    ∃ M, IsSeg devs3 p M none := by
  induction M0 generalizing p with
  | nil => exact ⟨[], h⟩
  | cons y ys ih =>
    have hp : p = some y := h.1
    have hr : IsSeg devs (devs y).banished_list_next ys none := h.2
    have hdev3 : (devs3 dev).banished_list_next = none := by
      rw [h3 dev, if_pos rfl]
    by_cases hy : y = dev
    · subst hy
      exact ⟨[y], hp, hdev3⟩
    · by_cases ht : y = t
      · subst ht
        have hy3 : (devs3 y).banished_list_next = some dev := by
          rw [h3 y, if_neg hy, if_pos rfl]
        refine ⟨[y, dev], hp, ?_, ?_⟩
        · exact hy3
        · exact hdev3
      · obtain ⟨M, hM⟩ := ih _ hr
        have hy3 : (devs3 y).banished_list_next = (devs y).banished_list_next := by
          rw [h3 y, if_neg hy, if_neg ht]
        refine ⟨y :: M, hp, ?_⟩
        show IsSeg devs3 (devs3 y).banished_list_next M none
        rw [hy3]
        exact hM

/-- A returning call of `ctlra_dev_impl_banish` keeps the link memory acyclic. -/
theorem banish_preserves_acyclic (fuel : Nat) (c : ctlra_t) (dev : Nat) (c1 : ctlra_t)
    (h : ctlra_dev_impl_banish fuel c dev = some c1) (hmem : LinksAcyclic c.devs) :
    LinksAcyclic c1.devs := by
  cases hh : c.banished_list with
  | none =>
    rw [banish_empty fuel c dev hh] at h
    have e := Option.some.inj h
    subst e
    intro d
    obtain ⟨M, hM⟩ := hmem d
    refine ⟨M, IsSeg_congr c.devs _ _ _ _ ?_ hM⟩
    intro x _
    show (setDev c.devs dev _ x).banished_list_next = _
    by_cases hx : x = dev
    · rw [hx, setDev_eq]
    · rw [setDev_ne _ _ _ _ hx]
  | some hd =>
    cases ht : banish_tail (setDev c.devs dev { c.devs dev with banished := 1 }) fuel hd with
    | none =>
      simp only [ctlra_dev_impl_banish, hh, ht] at h
      cases h
    | some t =>
      rw [banish_eq fuel c dev hd t hh ht] at h
      have e := Option.some.inj h
      subst e
      intro d
      obtain ⟨M, hM⟩ := hmem d
      exact chain_after_stores c.devs _ dev t (fun x => banish_links c.devs dev t x) M _ hM

theorem banishTimes_preserves_acyclic (fuel n : Nat) (c : ctlra_t) (dev : Nat) (c1 : ctlra_t)
    (h : banishTimes fuel n c dev = some c1) (hmem : LinksAcyclic c.devs) :
    LinksAcyclic c1.devs := by
  induction n generalizing c with
  | zero =>
    have e : some c = some c1 := h
    have e2 := Option.some.inj e
    subst e2
    exact hmem
  | succ k ih =>
    cases hb : ctlra_dev_impl_banish fuel c dev with
    | none =>
      simp only [banishTimes, hb] at h
      cases h
    | some c2 =>
      simp only [banishTimes, hb] at h
      exact ih c2 h (banish_preserves_acyclic fuel c dev c2 hb hmem)

/-! ## Banish list (`ctlra_dev_impl_banish`) -/

/-- C3: for every context whose link memory is acyclic (so that its banish list is
a well-formed, null-terminated chain) and every session, there is a fuel bound
from which on calling `ctlra_dev_impl_banish` on the session `n ≥ 1` times
returns, and afterwards the flag of the session is set, the traversal of the
banish list from its head visits the session exactly once, and the link
memory is still acyclic. -/
theorem banish_repeated_once (c : ctlra_t) (dev : Nat) (n : Nat)
    (hmem : LinksAcyclic c.devs) (hn : 1 ≤ n) :
    ∃ F, ∀ fuel, F ≤ fuel →
      ∃ c1, banishTimes fuel n c dev = some c1 ∧ BanishedOnce c1 dev ∧
        LinksAcyclic c1.devs := by
  obtain ⟨L, hc⟩ := acyclic_banish_list c hmem
  obtain ⟨M, hM⟩ := hmem dev
  refine ⟨L.length + M.length + 1, fun fuel hf => ?_⟩
  obtain ⟨k, rfl⟩ : ∃ k, n = k + 1 := ⟨n - 1, by omega⟩
  obtain ⟨c1, e1, e2, L1, e3, e4, e5⟩ :=
    banish_first c dev L M fuel hc (fun _ => hM) (by omega)
  obtain ⟨c2, f1, f2⟩ :=
    banish_again c1 dev (L.length + M.length + 1) fuel hf k e2 ⟨L1, e3, e4, e5⟩
  have hb : banishTimes fuel (k + 1) c dev = some c2 := by
    simp only [banishTimes, e1, f1]
  exact ⟨c2, hb, f2, banishTimes_preserves_acyclic fuel (k + 1) c dev c2 hb hmem⟩

/-- Worked instance: three calls on session 5 of a fresh context. -/
theorem banish_repeated_once_witness :
    ∃ F, ∀ fuel, F ≤ fuel →
      ∃ c1, banishTimes fuel 3 ctlra0 5 = some c1 ∧ BanishedOnce c1 5 ∧
        LinksAcyclic c1.devs :=
  banish_repeated_once ctlra0 5 3 links_acyclic_fresh (by decide)

/-- C4 (evaluation at the failing input): from a fresh context, banishing sessions
1, 2 and 3 yields the list 1, 2, 3; banishing session 1 again, which is already
in the list, leaves the list 1: sessions 2 and 3 are removed from it. -/
theorem banish_again_truncates_list :
    ∃ a b c d, ctlra_dev_impl_banish 3 ctlra0 1 = some a ∧
      ctlra_dev_impl_banish 3 a 2 = some b ∧
      ctlra_dev_impl_banish 3 b 3 = some c ∧
      BanishListIs c [1, 2, 3] ∧
      ctlra_dev_impl_banish 3 c 1 = some d ∧
      BanishListIs d [1] :=
  ⟨_, _, _, _, rfl, rfl, rfl, ⟨rfl, rfl, rfl, rfl⟩, rfl, ⟨rfl, rfl⟩⟩

/-! ## Transfers -/

/-- C1: for each of the three transfer operations, if the transport call reports
`LIBUSB_ERROR_TIMEOUT`, the operation returns 0 and the context is returned as it
was: neither the banished flag of any session nor the banish list changes. -/
theorem transfer_timeout_no_banish (K : Consts) (T : Transport) (fuel : Nat) (c : ctlra_t)
    (dev idx endpoint : Nat) (data : List Nat) (size : Nat) :
    ((T.libusb_interrupt_transfer ((c.devs dev).usb_interface idx) endpoint data size 10).1
        = K.LIBUSB_ERROR_TIMEOUT →
      ctlra_dev_impl_usb_interrupt_read K T fuel c dev idx endpoint data size
        = some (c, 0,
            [Call.libusb_interrupt_transfer ((c.devs dev).usb_interface idx) endpoint size 10])) ∧
    ((T.libusb_interrupt_transfer ((c.devs dev).usb_interface idx) endpoint data size 100).1
        = K.LIBUSB_ERROR_TIMEOUT →
      ctlra_dev_impl_usb_interrupt_write K T fuel c dev idx endpoint data size
        = some (c, 0,
            [Call.libusb_interrupt_transfer ((c.devs dev).usb_interface idx) endpoint size 100])) ∧
    ((T.libusb_bulk_transfer ((c.devs dev).usb_interface idx) endpoint data size 100).1
        = K.LIBUSB_ERROR_TIMEOUT →
      ctlra_dev_impl_usb_bulk_write K T fuel c dev idx endpoint data size
        = some (c, 0,
            [Call.libusb_bulk_transfer ((c.devs dev).usb_interface idx) endpoint size 100])) := by
  refine ⟨fun h => ?_, fun h => ?_, fun h => ?_⟩
  · simp only [ctlra_dev_impl_usb_interrupt_read, h, if_true]
  · simp only [ctlra_dev_impl_usb_interrupt_write, h, if_true]
  · simp only [ctlra_dev_impl_usb_bulk_write, h, if_true]

/-- Worked instance: a timed-out interrupt read, interrupt
write and bulk write on session 1 of `ctlra123`. -/
theorem transfer_timeout_no_banish_witness :
    (ctlra_dev_impl_usb_interrupt_read K0 Ttimeout 0 ctlra123 1 0 129 [] 64
      = some (ctlra123, 0, [Call.libusb_interrupt_transfer none 129 64 10])) ∧
    (ctlra_dev_impl_usb_interrupt_write K0 Ttimeout 0 ctlra123 1 0 1 [1, 2] 2
      = some (ctlra123, 0, [Call.libusb_interrupt_transfer none 1 2 100])) ∧
    (ctlra_dev_impl_usb_bulk_write K0 Ttimeout 0 ctlra123 1 0 1 [1, 2] 2
      = some (ctlra123, 0, [Call.libusb_bulk_transfer none 1 2 100])) :=
  ⟨(transfer_timeout_no_banish K0 Ttimeout 0 ctlra123 1 0 129 [] 64).1 rfl,
   (transfer_timeout_no_banish K0 Ttimeout 0 ctlra123 1 0 1 [1, 2] 2).2.1 rfl,
   (transfer_timeout_no_banish K0 Ttimeout 0 ctlra123 1 0 1 [1, 2] 2).2.2 rfl⟩

/-- C2: for every context whose link memory is acyclic and every session, there is
a fuel bound from which on each of the three transfer operations does the
following: if its transport call returns a negative `r` other than
`LIBUSB_ERROR_TIMEOUT`, the operation returns exactly `r`, and afterwards the
flag of the session is set, the session appears exactly once in the banish
list, and the link memory is still acyclic. -/
theorem transfer_fatal_banishes (K : Consts) (T : Transport) (c : ctlra_t)
    (dev idx endpoint : Nat) (data : List Nat) (size : Nat) (r : Int)
    (hmem : LinksAcyclic c.devs) (hneg : r < 0) (hnt : r ≠ K.LIBUSB_ERROR_TIMEOUT) :
    ∃ F, ∀ fuel, F ≤ fuel →
    ((T.libusb_interrupt_transfer ((c.devs dev).usb_interface idx) endpoint data size 10).1 = r →
      ∃ c1, ctlra_dev_impl_usb_interrupt_read K T fuel c dev idx endpoint data size
        = some (c1, r,
            [Call.libusb_interrupt_transfer ((c.devs dev).usb_interface idx) endpoint size 10])
        ∧ BanishedOnce c1 dev ∧ LinksAcyclic c1.devs) ∧
    ((T.libusb_interrupt_transfer ((c.devs dev).usb_interface idx) endpoint data size 100).1 = r →
      ∃ c1, ctlra_dev_impl_usb_interrupt_write K T fuel c dev idx endpoint data size
        = some (c1, r,
            [Call.libusb_interrupt_transfer ((c.devs dev).usb_interface idx) endpoint size 100])
        ∧ BanishedOnce c1 dev ∧ LinksAcyclic c1.devs) ∧
    ((T.libusb_bulk_transfer ((c.devs dev).usb_interface idx) endpoint data size 100).1 = r →
      ∃ c1, ctlra_dev_impl_usb_bulk_write K T fuel c dev idx endpoint data size
        = some (c1, r,
            [Call.libusb_bulk_transfer ((c.devs dev).usb_interface idx) endpoint size 100])
        ∧ BanishedOnce c1 dev ∧ LinksAcyclic c1.devs) := by
  obtain ⟨L, hc⟩ := acyclic_banish_list c hmem
  obtain ⟨M, hM⟩ := hmem dev
  refine ⟨L.length, fun fuel hf => ?_⟩
  obtain ⟨c1, e1, e2, L1, e3, e4, _⟩ := banish_first c dev L M fuel hc (fun _ => hM) hf
  have hb : BanishedOnce c1 dev := ⟨e2, L1, e3, e4⟩
  have ha : LinksAcyclic c1.devs := banish_preserves_acyclic fuel c dev c1 e1 hmem
  refine ⟨fun h => ⟨c1, ?_, hb, ha⟩, fun h => ⟨c1, ?_, hb, ha⟩, fun h => ⟨c1, ?_, hb, ha⟩⟩
  · simp only [ctlra_dev_impl_usb_interrupt_read, h, if_neg hnt, if_pos hneg, e1]
  · simp only [ctlra_dev_impl_usb_interrupt_write, h, if_neg hnt, if_pos hneg, e1]
  · simp only [ctlra_dev_impl_usb_bulk_write, h, if_neg hnt, if_pos hneg, e1]

/-- Worked instance: an interrupt read on session 4 of a fresh context, with the
transport reporting -4. -/
theorem transfer_fatal_banishes_witness :
    ∃ F, ∀ fuel, F ≤ fuel →
      ∃ c1, ctlra_dev_impl_usb_interrupt_read K0 Tnodev fuel ctlra0 4 0 129 [] 64
        = some (c1, -4, [Call.libusb_interrupt_transfer none 129 64 10])
        ∧ BanishedOnce c1 4 ∧ LinksAcyclic c1.devs :=
  Exists.imp (fun _ h fuel hf => (h fuel hf).1 rfl)
    (transfer_fatal_banishes K0 Tnodev ctlra0 4 0 129 [] 64 (-4) links_acyclic_fresh
      (by decide) (by decide))

/-- C10 (evaluation at the failing input): session 1 of `ctlraBanished` has its
banished flag set and is in the banish list, yet an interrupt read on it
issues a transport transfer on its handle 500, and so do an interrupt write
and a bulk write. -/
theorem banished_session_still_transfers :
    (ctlraBanished.devs 1).banished = 1 ∧ BanishListIs ctlraBanished [1] ∧
    ctlra_dev_impl_usb_interrupt_read K0 T0 1 ctlraBanished 1 0 129 [] 64
      = some (ctlraBanished, 4, [Call.libusb_interrupt_transfer (some 500) 129 64 10]) ∧
    ctlra_dev_impl_usb_interrupt_write K0 T0 1 ctlraBanished 1 0 1 [9, 9] 2
      = some (ctlraBanished, 4, [Call.libusb_interrupt_transfer (some 500) 1 2 100]) ∧
    ctlra_dev_impl_usb_bulk_write K0 T0 1 ctlraBanished 1 0 1 [9, 9] 2
      = some (ctlraBanished, 4, [Call.libusb_bulk_transfer (some 500) 1 2 100]) :=
  ⟨rfl, ⟨rfl, rfl⟩, rfl, rfl, rfl⟩

/-! ## Hotplug callback (`ctlra_usb_impl_hotplug_cb`) -/

/-- C6 (evaluation at the failing input): on a departure event for 17cc:1200 where
the session lookup finds no session (it returns -1 and stores nothing), the
callback still calls `ctlra_dev_disconnect`, on the indeterminate value of the
local `ni_mm` (here the pointer 99). -/
theorem departure_disconnects_without_session :
    Tnone.ctlra_impl_dev_get_by_vid_pid 0x17cc 0x1200 = (-1, none) ∧
    ctlra_usb_impl_hotplug_cb K0 Tnone 7 .DEVICE_LEFT (some 99) =
      (0, [Call.libusb_get_device_descriptor 7,
           Call.ctlra_impl_dev_get_by_vid_pid 0x17cc 0x1200,
           Call.ctlra_dev_disconnect (some 99)]) :=
  ⟨rfl, rfl⟩

/-- C7: on an arrival event whose descriptor read and handle open succeed, the
registry lookups issued are exactly the one on the quirk-resolved pair of the
raw descriptor pair; the resolved pair of (17cc, 1403) is (17cc, 1400), every
other pair resolves to itself, and resolving is idempotent. -/
theorem arrival_lookup_quirk_resolved (K : Consts) (T : Transport) (dev : Nat)
    (ni_mm : Option Nat) :
    ((T.libusb_get_device_descriptor dev).1 = K.LIBUSB_SUCCESS →
      (T.libusb_open (some dev)).1 = K.LIBUSB_SUCCESS →
      ∀ a b, Call.ctlra_impl_get_id_by_vid_pid a b ∈
          (ctlra_usb_impl_hotplug_cb K T dev .DEVICE_ARRIVED ni_mm).2 ↔
        (a, b) = quirk_resolve (T.libusb_get_device_descriptor dev).2.idVendor
                   (T.libusb_get_device_descriptor dev).2.idProduct) ∧
    quirk_resolve 0x17cc 0x1403 = (0x17cc, 0x1400) ∧
    (∀ v p, ¬ (v = 0x17cc ∧ p = 0x1403) → quirk_resolve v p = (v, p)) ∧
    (∀ v p, quirk_resolve (quirk_resolve v p).1 (quirk_resolve v p).2 = quirk_resolve v p) := by
  refine ⟨?_, rfl, ?_, ?_⟩
  · intro hd ho a b
    have hd2 : ¬ (K.LIBUSB_SUCCESS ≠ K.LIBUSB_SUCCESS) := fun c => c rfl
    simp only [ctlra_usb_impl_hotplug_cb, ctlra_usb_impl_get_serial, hd, ho, if_neg hd2]
    split_ifs <;> simp [Prod.ext_iff]
  · intro v p h
    simp only [quirk_resolve]
    split_ifs with h1 h2
    · exact absurd ⟨h1, h2⟩ h
    · rfl
    · rfl
  · intro v p
    simp only [quirk_resolve]
    split_ifs <;> simp_all

/-- Worked instance: an arrival of 17cc:1403 looks up
(17cc, 1400) in the driver registry. -/
theorem arrival_lookup_quirk_resolved_witness :
    Call.ctlra_impl_get_id_by_vid_pid 0x17cc 0x1400 ∈
      (ctlra_usb_impl_hotplug_cb K0 Tquirk 7 .DEVICE_ARRIVED none).2 :=
  ((arrival_lookup_quirk_resolved K0 Tquirk 7 none).1 rfl rfl 0x17cc 0x1400).2 rfl

/-- C8: on an arrival event whose descriptor read and handle open succeed, with `h`
the handle opened: when the registry lookup on the resolved pair is negative,
`libusb_close` is called once, on `h`, and the acceptance routine is not
called; when the lookup succeeds and acceptance reports 0, `libusb_close` is
called once, on `h`; when acceptance reports non-zero, `libusb_close` is not
called at all. -/
theorem arrival_handle_release (K : Consts) (T : Transport) (dev : Nat) (ni_mm : Option Nat)
    (hd : (T.libusb_get_device_descriptor dev).1 = K.LIBUSB_SUCCESS)
    (ho : (T.libusb_open (some dev)).1 = K.LIBUSB_SUCCESS) :
    (T.ctlra_impl_get_id_by_vid_pid
        (quirk_resolve (T.libusb_get_device_descriptor dev).2.idVendor
          (T.libusb_get_device_descriptor dev).2.idProduct).1
        (quirk_resolve (T.libusb_get_device_descriptor dev).2.idVendor
          (T.libusb_get_device_descriptor dev).2.idProduct).2 < 0 →
      (∀ h2, (ctlra_usb_impl_hotplug_cb K T dev .DEVICE_ARRIVED ni_mm).2.count
          (Call.libusb_close h2) = if h2 = (T.libusb_open (some dev)).2 then 1 else 0) ∧
      (∀ id, Call.ctlra_impl_accept_dev id ∉
          (ctlra_usb_impl_hotplug_cb K T dev .DEVICE_ARRIVED ni_mm).2)) ∧
    (¬ T.ctlra_impl_get_id_by_vid_pid
        (quirk_resolve (T.libusb_get_device_descriptor dev).2.idVendor
          (T.libusb_get_device_descriptor dev).2.idProduct).1
        (quirk_resolve (T.libusb_get_device_descriptor dev).2.idVendor
          (T.libusb_get_device_descriptor dev).2.idProduct).2 < 0 →
      (T.ctlra_impl_accept_dev (T.ctlra_impl_get_id_by_vid_pid
        (quirk_resolve (T.libusb_get_device_descriptor dev).2.idVendor
          (T.libusb_get_device_descriptor dev).2.idProduct).1
        (quirk_resolve (T.libusb_get_device_descriptor dev).2.idVendor
          (T.libusb_get_device_descriptor dev).2.idProduct).2) = 0 →
        ∀ h2, (ctlra_usb_impl_hotplug_cb K T dev .DEVICE_ARRIVED ni_mm).2.count
          (Call.libusb_close h2) = if h2 = (T.libusb_open (some dev)).2 then 1 else 0) ∧
      (T.ctlra_impl_accept_dev (T.ctlra_impl_get_id_by_vid_pid
        (quirk_resolve (T.libusb_get_device_descriptor dev).2.idVendor
          (T.libusb_get_device_descriptor dev).2.idProduct).1
        (quirk_resolve (T.libusb_get_device_descriptor dev).2.idVendor
          (T.libusb_get_device_descriptor dev).2.idProduct).2) ≠ 0 →
        ∀ h2, Call.libusb_close h2 ∉
          (ctlra_usb_impl_hotplug_cb K T dev .DEVICE_ARRIVED ni_mm).2)) := by
  have hd2 : ¬ (K.LIBUSB_SUCCESS ≠ K.LIBUSB_SUCCESS) := fun c => c rfl
  refine ⟨fun hid => ⟨fun h2 => ?_, fun id => ?_⟩,
    fun hid => ⟨fun hacc h2 => ?_, fun hacc h2 => ?_⟩⟩
  · simp only [ctlra_usb_impl_hotplug_cb, ctlra_usb_impl_get_serial, hd, ho, if_neg hd2,
      if_pos hid]
    by_cases e : h2 = (T.libusb_open (some dev)).2
    · split_ifs <;> simp [List.count_cons, e]
    · have e2 : ¬ ((T.libusb_open (some dev)).2 = h2) := fun c => e c.symm
      split_ifs <;> simp [List.count_cons, e, e2]
  · simp only [ctlra_usb_impl_hotplug_cb, ctlra_usb_impl_get_serial, hd, ho, if_neg hd2,
      if_pos hid]
    split_ifs <;> simp
  · simp only [ctlra_usb_impl_hotplug_cb, ctlra_usb_impl_get_serial, hd, ho, if_neg hd2,
      if_neg hid, if_pos hacc]
    by_cases e : h2 = (T.libusb_open (some dev)).2
    · split_ifs <;> simp [List.count_cons, e]
    · have e2 : ¬ ((T.libusb_open (some dev)).2 = h2) := fun c => e c.symm
      split_ifs <;> simp [List.count_cons, e, e2]
  · simp only [ctlra_usb_impl_hotplug_cb, ctlra_usb_impl_get_serial, hd, ho, if_neg hd2,
      if_neg hid, if_neg hacc]
    split_ifs <;> simp

/-- Worked instance: an arrival of 0000:0000 that the registry
does not support closes the opened handle 500 once and calls no acceptance. -/
theorem arrival_handle_release_witness :
    (∀ h2, (ctlra_usb_impl_hotplug_cb K0 Tunsupported 7 .DEVICE_ARRIVED none).2.count
        (Call.libusb_close h2) = if h2 = some 500 then 1 else 0) ∧
    (∀ id, Call.ctlra_impl_accept_dev id ∉
        (ctlra_usb_impl_hotplug_cb K0 Tunsupported 7 .DEVICE_ARRIVED none).2) :=
  (arrival_handle_release K0 Tunsupported 7 none rfl rfl).1 (by decide)

/-! ## Opening an interface (`ctlra_dev_impl_usb_open_interface`) -/

/-- C5: for a slot index within the slot bound the call returns, with 0 or -1.
It returns 0 exactly when the open, the enabling of kernel driver detaching
(where supported) and the claim all succeed; then the slot at the index holds
the handle opened and claimed in the call and every other slot is as before.
Otherwise (the open, the detach setting or the claim failed) it returns -1 and
the whole slot array is as before. -/
theorem open_interface_commit_on_success (K : Consts) (T : Transport) (d : ctlra_dev_t)
    (interface handle_idx : Int)
    (h0 : 0 ≤ handle_idx) (h1 : handle_idx < (K.CTLRA_USB_IFACE_PER_DEV : Int)) :
    ∃ d1 ret, ctlra_dev_impl_usb_open_interface K T d interface handle_idx = some (d1, ret) ∧
      (ret = 0 ↔
        ((T.libusb_open d.usb_device).1 = K.LIBUSB_SUCCESS ∧
         (T.libusb_has_capability_detach = true →
           T.libusb_set_auto_detach_kernel_driver (T.libusb_open d.usb_device).2 1
             = K.LIBUSB_SUCCESS) ∧
         T.libusb_claim_interface (T.libusb_open d.usb_device).2 interface
           = K.LIBUSB_SUCCESS)) ∧
      (ret = 0 →
        d1.usb_interface handle_idx.toNat = (T.libusb_open d.usb_device).2 ∧
        ∀ j, j ≠ handle_idx.toNat → d1.usb_interface j = d.usb_interface j) ∧
      (ret ≠ 0 → ret = -1 ∧ d1.usb_interface = d.usb_interface) := by
  have hge : ¬ (handle_idx ≥ (K.CTLRA_USB_IFACE_PER_DEV : Int)) := by omega
  have hlt : ¬ (handle_idx < 0) := by omega
  simp only [ctlra_dev_impl_usb_open_interface, if_neg hge, if_neg hlt]
  by_cases ho : (T.libusb_open d.usb_device).1 = K.LIBUSB_SUCCESS
  · have ho2 : ¬ ((T.libusb_open d.usb_device).1 ≠ K.LIBUSB_SUCCESS) := fun c => c ho
    rw [if_neg ho2]
    by_cases hs : T.libusb_has_capability_detach = true ∧
        T.libusb_set_auto_detach_kernel_driver (T.libusb_open d.usb_device).2 1
          ≠ K.LIBUSB_SUCCESS
    · rw [if_pos hs]
      refine ⟨_, _, rfl, ?_, ?_, ?_⟩
      · constructor
        · intro c
          exact absurd c (by decide)
        · rintro ⟨_, h2, _⟩
          exact absurd (h2 hs.1) hs.2
      · intro c
        exact absurd c (by decide)
      · intro _
        exact ⟨rfl, rfl⟩
    · rw [if_neg hs]
      have hs2 : T.libusb_has_capability_detach = true →
          T.libusb_set_auto_detach_kernel_driver (T.libusb_open d.usb_device).2 1
            = K.LIBUSB_SUCCESS := by
        intro hcap
        by_contra hne
        exact hs ⟨hcap, hne⟩
      by_cases hcl : T.libusb_claim_interface (T.libusb_open d.usb_device).2 interface
          = K.LIBUSB_SUCCESS
      · have hcl2 : ¬ (T.libusb_claim_interface (T.libusb_open d.usb_device).2 interface
            ≠ K.LIBUSB_SUCCESS) := fun c => c hcl
        rw [if_neg hcl2]
        refine ⟨_, _, rfl, ?_, ?_, ?_⟩
        · exact ⟨fun _ => ⟨ho, hs2, hcl⟩, fun _ => rfl⟩
        · intro _
          refine ⟨?_, ?_⟩
          · simp [setSlot]
          · intro j hj
            simp [setSlot, hj]
        · intro c
          exact absurd rfl c
      · rw [if_pos hcl]
        refine ⟨_, _, rfl, ?_, ?_, ?_⟩
        · constructor
          · intro c
            exact absurd c (by decide)
          · rintro ⟨_, _, h3⟩
            exact absurd h3 hcl
        · intro c
          exact absurd c (by decide)
        · intro _
          exact ⟨rfl, rfl⟩
  · rw [if_pos ho]
    refine ⟨_, _, rfl, ?_, ?_, ?_⟩
    · constructor
      · intro c
        exact absurd c (by decide)
      · rintro ⟨h2, _⟩
        exact absurd h2 ho
    · intro c
      exact absurd c (by decide)
    · intro _
      exact ⟨rfl, rfl⟩

/-- Worked instance: opening interface 0 into slot 1
of a zero-initialised session. -/
theorem open_interface_commit_on_success_witness :
    ∃ d1 ret, ctlra_dev_impl_usb_open_interface K0 T0 dev0 0 1 = some (d1, ret) ∧
      (ret = 0 ↔
        ((T0.libusb_open dev0.usb_device).1 = K0.LIBUSB_SUCCESS ∧
         (T0.libusb_has_capability_detach = true →
           T0.libusb_set_auto_detach_kernel_driver (T0.libusb_open dev0.usb_device).2 1
             = K0.LIBUSB_SUCCESS) ∧
         T0.libusb_claim_interface (T0.libusb_open dev0.usb_device).2 0
           = K0.LIBUSB_SUCCESS)) ∧
      (ret = 0 →
        d1.usb_interface (1 : Int).toNat = (T0.libusb_open dev0.usb_device).2 ∧
        ∀ j, j ≠ (1 : Int).toNat → d1.usb_interface j = dev0.usb_interface j) ∧
      (ret ≠ 0 → ret = -1 ∧ d1.usb_interface = dev0.usb_interface) :=
  open_interface_commit_on_success K0 T0 dev0 0 1 (by decide) (by decide)

/-! ## Opening a device by identity (`ctlra_dev_impl_usb_open`) -/

theorem usb_open_scan_first (T : Transport) (vid pid : Int) (cd : ctlra_dev_t)
    (pre post : List Nat) (d : Nat)
    (hpre : ∀ x ∈ pre, 0 ≤ (T.libusb_get_device_descriptor x).1 ∧ ¬ DescMatches T vid pid x)
    (hr : 0 ≤ (T.libusb_get_device_descriptor d).1) (hm : DescMatches T vid pid d) :
    usb_open_scan T vid pid cd (pre ++ d :: post) =
      .done { cd with
              info := { cd.info with
                        serial_number := (T.libusb_get_device_descriptor d).2.iSerialNumber
                        vendor_id := (T.libusb_get_device_descriptor d).2.idVendor
                        device_id := (T.libusb_get_device_descriptor d).2.idProduct } }
        (some d) := by
  induction pre with
  | nil =>
    have hr2 : ¬ ((T.libusb_get_device_descriptor d).1 < 0) := by omega
    have hm2 : ((T.libusb_get_device_descriptor d).2.idVendor : Int) = vid ∧
        ((T.libusb_get_device_descriptor d).2.idProduct : Int) = pid := hm
    simp only [List.nil_append, usb_open_scan, if_neg hr2, if_pos hm2]
  | cons x xs ih =>
    have hx := hpre x (List.mem_cons_self x xs)
    have hr2 : ¬ ((T.libusb_get_device_descriptor x).1 < 0) := by omega
    have hm2 : ¬ (((T.libusb_get_device_descriptor x).2.idVendor : Int) = vid ∧
        ((T.libusb_get_device_descriptor x).2.idProduct : Int) = pid) := hx.2
    simp only [List.cons_append, usb_open_scan, if_neg hr2, if_neg hm2]
    exact ih (fun y hy => hpre y (List.mem_cons_of_mem x hy))

theorem usb_open_scan_found (T : Transport) (vid pid : Int) (cd d1 : ctlra_dev_t)
    (l : List Nat) (d : Nat) (h : usb_open_scan T vid pid cd l = .done d1 (some d)) :
    FirstMatch T vid pid l d := by
  induction l with
  | nil =>
    simp only [usb_open_scan] at h
    cases h
  | cons x xs ih =>
    simp only [usb_open_scan] at h
    by_cases hr : (T.libusb_get_device_descriptor x).1 < 0
    · rw [if_pos hr] at h
      cases h
    · rw [if_neg hr] at h
      by_cases hm : ((T.libusb_get_device_descriptor x).2.idVendor : Int) = vid ∧
          ((T.libusb_get_device_descriptor x).2.idProduct : Int) = pid
      · rw [if_pos hm] at h
        injection h with _ h2
        have e : x = d := Option.some.inj h2
        subst e
        exact ⟨[], xs, rfl, fun y hy => absurd hy (List.not_mem_nil y), by omega, hm⟩
      · rw [if_neg hm] at h
        obtain ⟨pre, post, e, hpre, hr2, hm2⟩ := ih h
        refine ⟨x :: pre, post, by rw [e]; rfl, ?_, hr2, hm2⟩
        intro y hy
        rcases List.mem_cons.1 hy with hy1 | hy1
        · subst hy1
          exact ⟨by omega, hm⟩
        · exact hpre y hy1

/-- C9 (amended): when the enumeration succeeds, `ctlra_dev_impl_usb_open` returns
0 exactly when some enumerated device carries the pair `(vid, pid)` with no
descriptor read failing on it or on a device enumerated before the first such
device; the session then records the identity (vendor id, product id, serial
descriptor index) of that first matching device, refers to it, and has every
interface slot cleared.  In every other case it returns -1 and leaves the
session as it was. -/
theorem usb_open_first_match (K : Consts) (T : Transport) (cd : ctlra_dev_t) (vid pid : Int)
    (hcnt : 0 ≤ T.libusb_get_device_list.1) :
    ((ctlra_dev_impl_usb_open K T cd vid pid).2 = 0 ↔
      ∃ d, FirstMatch T vid pid T.libusb_get_device_list.2 d) ∧
    (∀ d, FirstMatch T vid pid T.libusb_get_device_list.2 d →
      (ctlra_dev_impl_usb_open K T cd vid pid).2 = 0 ∧
      (ctlra_dev_impl_usb_open K T cd vid pid).1.info.vendor_id
        = (T.libusb_get_device_descriptor d).2.idVendor ∧
      (ctlra_dev_impl_usb_open K T cd vid pid).1.info.device_id
        = (T.libusb_get_device_descriptor d).2.idProduct ∧
      (ctlra_dev_impl_usb_open K T cd vid pid).1.info.serial_number
        = (T.libusb_get_device_descriptor d).2.iSerialNumber ∧
      (ctlra_dev_impl_usb_open K T cd vid pid).1.usb_device = some d ∧
      ∀ i, i < K.CTLRA_USB_IFACE_PER_DEV →
        (ctlra_dev_impl_usb_open K T cd vid pid).1.usb_interface i = none) ∧
    ((ctlra_dev_impl_usb_open K T cd vid pid).2 ≠ 0 →
      (ctlra_dev_impl_usb_open K T cd vid pid).2 = -1 ∧
      (ctlra_dev_impl_usb_open K T cd vid pid).1 = cd) := by
  have hc : ¬ (T.libusb_get_device_list.1 < 0) := by omega
  have hfound : ∀ d, FirstMatch T vid pid T.libusb_get_device_list.2 d →
      (ctlra_dev_impl_usb_open K T cd vid pid).2 = 0 ∧
      (ctlra_dev_impl_usb_open K T cd vid pid).1.info.vendor_id
        = (T.libusb_get_device_descriptor d).2.idVendor ∧
      (ctlra_dev_impl_usb_open K T cd vid pid).1.info.device_id
        = (T.libusb_get_device_descriptor d).2.idProduct ∧
      (ctlra_dev_impl_usb_open K T cd vid pid).1.info.serial_number
        = (T.libusb_get_device_descriptor d).2.iSerialNumber ∧
      (ctlra_dev_impl_usb_open K T cd vid pid).1.usb_device = some d ∧
      ∀ i, i < K.CTLRA_USB_IFACE_PER_DEV →
        (ctlra_dev_impl_usb_open K T cd vid pid).1.usb_interface i = none := by
    rintro d ⟨pre, post, e, hpre, hr, hm⟩
    have hs := usb_open_scan_first T vid pid cd pre post d hpre hr hm
    rw [← e] at hs
    simp only [ctlra_dev_impl_usb_open, if_neg hc, hs]
    refine ⟨trivial, trivial, trivial, trivial, trivial, ?_⟩
    intro i hi
    simp only [if_pos hi]
  refine ⟨⟨?_, fun ⟨d, hd⟩ => (hfound d hd).1⟩, hfound, ?_⟩
  · intro h
    simp only [ctlra_dev_impl_usb_open, if_neg hc] at h
    cases hs : usb_open_scan T vid pid cd T.libusb_get_device_list.2 with
    | fail =>
      rw [hs] at h
      simp at h
    | done d1 o =>
      cases o with
      | none =>
        rw [hs] at h
        simp at h
      | some d => exact ⟨d, usb_open_scan_found T vid pid cd d1 _ d hs⟩
  · intro h
    simp only [ctlra_dev_impl_usb_open, if_neg hc] at h ⊢
    cases hs : usb_open_scan T vid pid cd T.libusb_get_device_list.2 with
    | fail => exact ⟨rfl, rfl⟩
    | done d1 o =>
      cases o with
      | none => exact ⟨rfl, rfl⟩
      | some d =>
        rw [hs] at h
        exact absurd rfl h

/-- Worked instance: opening 17cc:1400 on the transport `T0`,
which enumerates the single device 7 with that identity. -/
theorem usb_open_first_match_witness :
    (ctlra_dev_impl_usb_open K0 T0 dev0 0x17cc 0x1400).2 = 0 ∧
    (ctlra_dev_impl_usb_open K0 T0 dev0 0x17cc 0x1400).1.info.vendor_id = 0x17cc ∧
    (ctlra_dev_impl_usb_open K0 T0 dev0 0x17cc 0x1400).1.info.device_id = 0x1400 ∧
    (ctlra_dev_impl_usb_open K0 T0 dev0 0x17cc 0x1400).1.info.serial_number = 0 ∧
    (ctlra_dev_impl_usb_open K0 T0 dev0 0x17cc 0x1400).1.usb_device = some 7 ∧
    ∀ i, i < 2 → (ctlra_dev_impl_usb_open K0 T0 dev0 0x17cc 0x1400).1.usb_interface i = none :=
  (usb_open_first_match K0 T0 dev0 0x17cc 0x1400 (by decide)).2.1 7
    ⟨[], [], rfl, fun y hy => absurd hy (List.not_mem_nil y), by decide, ⟨rfl, rfl⟩⟩

/-- C9 fails as stated: the transport `Tbad` enumerates devices 7 and 8, device 8
carries the pair 17cc:1400 and its descriptor read succeeds, but the
descriptor read of device 7, enumerated first, fails; the call returns -1 and
leaves the session as it was. -/
theorem usb_open_descriptor_failure_counterexample :
    Tbad.libusb_get_device_list = (2, [7, 8]) ∧
    (Tbad.libusb_get_device_descriptor 8).1 = 0 ∧
    DescMatches Tbad 0x17cc 0x1400 8 ∧
    (ctlra_dev_impl_usb_open K0 Tbad dev0 0x17cc 0x1400).2 = -1 :=
  ⟨rfl, rfl, ⟨rfl, rfl⟩, rfl⟩

end Ctlra
